import Mathlib

/-!
Verification development for the `dev-kit` MCP server repository.

The definitions below are a shallow embedding of the TypeScript sources:

* `src/index.ts` — the GitLab MCP server: tool tables (`allTools`,
  `readOnlyTools`), `normalizeGitLabApiUrl`, `handleGitLabError`,
  `getFileContents`, `createOrUpdateFile`, and the two request handlers
  (tool listing and tool dispatch).
* `build/tools/github/index.js` — the GitHub tool registrations
  (`registerGetFileContent`, `registerPRAction`).
* `build/tools/script/index.js` — the sandboxed command execution tool
  (`registerExecuteCommandLineScript`).

JavaScript strings are modelled as Lean `String` / `List Char`; JS string
truthiness (`""` is falsy) and `undefined` are modelled with `Option String`
plus an explicit truthiness predicate.  Remote calls (axios / octokit /
gitbeaker / `child_process.exec`) are modelled as explicit outcome values
passed to the embedded function, so each embedded handler is a pure function
of its arguments and of the remote outcomes it consumes.
-/

namespace DevKit

/-! ## Generic string helpers (JavaScript semantics) -/

/-- Boolean prefix test on character lists (`as` is a prefix of the second
list).  Used to model JS `String.prototype.startsWith` and as the engine for
the suffix test. -/
def isPrefixL : List Char → List Char → Bool
  | [], _ => true
  | _ :: _, [] => false
  | a :: as, b :: bs => a == b && isPrefixL as bs

/-- Model of JS `String.prototype.endsWith` on character lists. -/
def endsWithL (suf l : List Char) : Bool := isPrefixL suf.reverse l.reverse

/-- Boolean substring test: `needle` occurs contiguously in `hay`.  Model of
JS `String.prototype.includes`. -/
def containsL (needle : List Char) : List Char → Bool
  | [] => isPrefixL needle []
  | c :: rest => isPrefixL needle (c :: rest) || containsL needle rest

/-- JS `hay.includes(needle)` on Lean strings. -/
def strIncludes (hay needle : String) : Bool := containsL needle.data hay.data

/-- JS truthiness of an optional string: `undefined` and `""` are falsy,
every other string is truthy. -/
def truthyStr : Option String → Bool
  | none => false
  | some s => !(s == "")

/-! ## `normalizeGitLabApiUrl` (src/index.ts)

```ts
function normalizeGitLabApiUrl(url?: string): string {
    if (!url) { return 'https://gitlab.com/api/v4'; }
    let normalizedUrl = url.endsWith('/') ? url.slice(0, -1) : url;
    if (!normalizedUrl.endsWith('/api/v4') && !normalizedUrl.endsWith('/api/v4/')) {
        normalizedUrl = `${normalizedUrl}/api/v4`;
    }
    return normalizedUrl;
}
```

URLs are modelled as `List Char`; the `!url` guard (undefined or empty
string) is modelled by the empty list. -/

def apiV4 : List Char := ['/', 'a', 'p', 'i', '/', 'v', '4']

def apiV4Slash : List Char := ['/', 'a', 'p', 'i', '/', 'v', '4', '/']

def apiV4SlashSlash : List Char := ['/', 'a', 'p', 'i', '/', 'v', '4', '/', '/']

def defaultApiUrl : List Char :=
  ['h', 't', 't', 'p', 's', ':', '/', '/', 'g', 'i', 't', 'l', 'a', 'b', '.', 'c', 'o', 'm']
    ++ apiV4

def normalizeGitLabApiUrl (url : List Char) : List Char :=
  if url.isEmpty then defaultApiUrl
  else
    let normalizedUrl := if endsWithL ['/'] url then url.dropLast else url
    if !endsWithL apiV4 normalizedUrl && !endsWithL apiV4Slash normalizedUrl then
      normalizedUrl ++ apiV4
    else normalizedUrl

/-! ## Tool tables and the listing handler (src/index.ts)

`allTools` is the table advertised by the server; each entry also carries an
`inputSchema` produced by the external `zodToJsonSchema` library, which plays
no role in read-only filtering and is omitted from the embedding.
`readOnlyTools` is the static list of names classified as read-only.  The
`ListToolsRequestSchema` handler is:

```ts
const tools = GITLAB_READ_ONLY_MODE
    ? allTools.filter((tool) => readOnlyTools.includes(tool.name))
    : allTools;
return { tools };
```
-/

structure ToolDescriptor where
  name : String
  description : String
deriving DecidableEq

def allTools : List ToolDescriptor := [
  ⟨"create_or_update_file", "Create or update a file in a GitLab repository"⟩,
  ⟨"search_repositories", "Search for GitLab projects"⟩,
  ⟨"create_repository", "Create a new GitLab project"⟩,
  ⟨"get_file_contents", "Get the contents of a file or directory from a GitLab project"⟩,
  ⟨"push_files", "Push multiple files to a GitLab project in a single commit"⟩,
  ⟨"create_issue", "Create a new issue in a GitLab project"⟩,
  ⟨"create_merge_request", "Create a new merge request in a GitLab project"⟩,
  ⟨"fork_repository", "Fork a GitLab project to your account or specified namespace"⟩,
  ⟨"create_branch", "Create a new branch in a GitLab project"⟩,
  ⟨"get_merge_request", "Get details of a merge request"⟩,
  ⟨"get_merge_request_diffs", "Get the changes/diffs of a merge request"⟩,
  ⟨"update_merge_request", "Update a merge request"⟩,
  ⟨"create_note", "Create a new note (comment) to an issue or merge request"⟩,
  ⟨"list_merge_request_discussions", "List discussion items for a merge request"⟩,
  ⟨"update_merge_request_note", "Modify an existing merge request thread note"⟩,
  ⟨"list_issues", "List issues in a GitLab project with filtering options"⟩,
  ⟨"get_issue", "Get details of a specific issue in a GitLab project"⟩,
  ⟨"update_issue", "Update an issue in a GitLab project"⟩,
  ⟨"delete_issue", "Delete an issue from a GitLab project"⟩,
  ⟨"list_issue_links", "List all issue links for a specific issue"⟩,
  ⟨"get_issue_link", "Get a specific issue link"⟩,
  ⟨"create_issue_link", "Create an issue link between two issues"⟩,
  ⟨"delete_issue_link", "Delete an issue link"⟩,
  ⟨"list_namespaces", "List all namespaces available to the current user"⟩,
  ⟨"get_namespace", "Get details of a namespace by ID or path"⟩,
  ⟨"verify_namespace", "Verify if a namespace path exists"⟩,
  ⟨"get_project", "Get details of a specific project"⟩,
  ⟨"list_projects", "Get a list of projects with id, name, description, web_url and other useful information"⟩,
  ⟨"list_labels", "List labels for a project"⟩,
  ⟨"get_label", "Get a single label from a project"⟩,
  ⟨"create_label", "Create a new label in a project"⟩,
  ⟨"update_label", "Update an existing label in a project"⟩,
  ⟨"delete_label", "Delete a label from a project"⟩,
  ⟨"list_group_projects", "List projects in a GitLab group with filtering options"⟩,
  ⟨"list_open_merge_requests", "Lists all open merge requests in the project"⟩,
  ⟨"get_merge_request_details", "Get details about a specific merge request of a project like title, description, author, assignee, state, and more"⟩,
  ⟨"get_merge_request_comments", "Get general and file diff comments of a certain merge request"⟩,
  ⟨"add_merge_request_diff_comment", "Add a comment of a merge request at a specific line in a file diff"⟩]

def readOnlyTools : List String := [
  "search_repositories",
  "get_file_contents",
  "get_merge_request",
  "get_merge_request_diffs",
  "list_merge_request_discussions",
  "list_issues",
  "get_issue",
  "list_issue_links",
  "get_issue_link",
  "list_namespaces",
  "get_namespace",
  "verify_namespace",
  "get_project",
  "list_projects",
  "list_labels",
  "get_label",
  "list_group_projects"]

/-- Startup resolution of the read-only flag:
`process.env.GITLAB_READ_ONLY_MODE === 'true'`. -/
def readOnlyModeOf (env : Option String) : Bool := env == some "true"

/-- The `ListToolsRequestSchema` handler of src/index.ts. -/
def listToolsResponse (readOnlyMode : Bool) : List ToolDescriptor :=
  if readOnlyMode then allTools.filter (fun tool => readOnlyTools.contains tool.name)
  else allTools

/-! ## The call-tool dispatcher (src/index.ts, `CallToolRequestSchema` handler)

The handler is one `switch (request.params.name)` inside a `try`:

```ts
try {
    if (!request.params.arguments) { throw new Error('Arguments are required'); }
    switch (request.params.name) {
        case 'fork_repository': { const args = ForkRepositorySchema.parse(...); ... }
        ...
        default: throw new Error(`Unknown tool: ${request.params.name}`);
    }
} catch (error) {
    if (error instanceof z.ZodError) {
        throw new Error(`Invalid arguments: ${error.errors
            .map((e) => `${e.path.join('.')}: ${e.message}`).join(', ')}`);
    }
    throw error;
}
```

Raw argument payloads are modelled as association lists of JSON values, and
each `case` body is abstracted as a function producing either a result, a
thrown `ZodError` (from `Schema.parse`), or another thrown error.  The
dispatcher takes the resolved `GITLAB_READ_ONLY_MODE` boolean as an explicit
parameter; the source handler never consults it, so the parameter is unused,
and that fact is exactly what claim C2 is about. -/

inductive Json where
  | str (s : String)
  | num (n : Int)
  | bool (b : Bool)
  | null
deriving DecidableEq

abbrev RawArgs := List (String × Json)

/-- One entry of a `ZodError`: the offending field's path inside the schema
and a human-readable reason. -/
structure ZodIssue where
  path : List String
  message : String
deriving DecidableEq

/-- The text the catch block renders for one issue: dotted path, colon,
message. -/
def zodIssueText (e : ZodIssue) : String :=
  String.intercalate "." e.path ++ ": " ++ e.message

/-- The message of the error rethrown for a `ZodError`. -/
def invalidArgumentsMessage (issues : List ZodIssue) : String :=
  "Invalid arguments: " ++ String.intercalate ", " (issues.map zodIssueText)

/-- The names of the `case` labels of the dispatcher switch, in source
order. -/
def callToolCaseNames : List String := [
  "fork_repository",
  "add_merge_request_diff_comment",
  "create_branch",
  "search_repositories",
  "create_repository",
  "get_file_contents",
  "create_or_update_file",
  "push_files",
  "create_issue",
  "create_merge_request",
  "update_merge_request_note",
  "get_merge_request",
  "get_merge_request_diffs",
  "update_merge_request",
  "list_merge_request_discussions",
  "list_namespaces",
  "get_namespace",
  "verify_namespace",
  "get_project",
  "list_projects",
  "create_note",
  "list_issues",
  "get_issue",
  "update_issue",
  "delete_issue",
  "list_issue_links",
  "get_issue_link",
  "create_issue_link",
  "delete_issue_link",
  "list_labels",
  "get_label",
  "create_label",
  "update_label",
  "delete_label",
  "list_group_projects",
  "list_open_merge_requests",
  "get_merge_request_details",
  "get_merge_request_comments"]

/-- Outcome of one `case` body of the switch (an abstract tool handler run):
a returned result, a `ZodError` thrown by `Schema.parse`, or any other
thrown error. -/
inductive CaseOutcome (α : Type) where
  | ok (result : α)
  | zodError (issues : List ZodIssue)
  | thrown (message : String)
deriving DecidableEq

/-- What the `CallToolRequestSchema` handler hands back to the protocol
layer: a returned response or a thrown error. -/
inductive DispatchResult (α : Type) where
  | ok (result : α)
  | thrown (message : String)
deriving DecidableEq

structure CallToolRequest where
  name : String
  arguments : Option RawArgs

set_option linter.unusedVariables false in
/-- The `CallToolRequestSchema` handler.  `readOnlyMode` is the resolved
`GITLAB_READ_ONLY_MODE` value; the source handler body never reads it. -/
def callToolDispatch {α : Type} (readOnlyMode : Bool)
    (caseBody : String → RawArgs → CaseOutcome α) (req : CallToolRequest) :
    DispatchResult α :=
  match req.arguments with
  | none => .thrown "Arguments are required"
  | some raw =>
    if callToolCaseNames.contains req.name then
      match caseBody req.name raw with
      | .ok r => .ok r
      | .zodError issues => .thrown (invalidArgumentsMessage issues)
      | .thrown m => .thrown m
    else .thrown ("Unknown tool: " ++ req.name)

/-! ## The `create_or_update_file` case: validation before invocation (C3) -/

/-- Arguments of `create_or_update_file` after validation, as consumed by the
dispatcher case (`args.project_id`, …) and by `createOrUpdateFile`. -/
structure CreateOrUpdateFileArgs where
  project_id : String
  file_path : String
  content : String
  commit_message : String
  branch : String
  previous_path : Option String
  last_commit_id : Option String
  commit_id : Option String
deriving DecidableEq

def lookupRaw (raw : RawArgs) (key : String) : Option Json :=
  match raw with
  | [] => none
  | (k, v) :: rest => if k == key then some v else lookupRaw rest key

def jsonTypeName : Json → String
  | .str _ => "string"
  | .num _ => "number"
  | .bool _ => "boolean"
  | .null => "null"

/-- Issues zod reports for one required string field: `Required` when the
field is absent, a type message when present with the wrong type. -/
def requiredStringIssues (raw : RawArgs) (key : String) : List ZodIssue :=
  match lookupRaw raw key with
  | none => [⟨[key], "Required"⟩]
  | some (.str _) => []
  | some v => [⟨[key], "Expected string, received " ++ jsonTypeName v⟩]

/-- Issues zod reports for one optional string field. -/
def optionalStringIssues (raw : RawArgs) (key : String) : List ZodIssue :=
  match lookupRaw raw key with
  | none => []
  | some (.str _) => []
  | some v => [⟨[key], "Expected string, received " ++ jsonTypeName v⟩]

def stringField (raw : RawArgs) (key : String) : String :=
  match lookupRaw raw key with
  | some (.str s) => s
  | _ => ""

def optStringField (raw : RawArgs) (key : String) : Option String :=
  match lookupRaw raw key with
  | some (.str s) => some s
  | _ => none

/-- Modelled from the spec: the zod schema module (`./schema.js`, imported by
src/index.ts) is not among the provided sources, so
`CreateOrUpdateFileSchema` is reconstructed from §4.1 of the spec (each field
checked for presence and type, every violation recorded with its dotted path
and a human-readable reason, all violations collected, unknown extra fields
ignored) together with the fields the dispatcher case consumes: required
string fields `project_id`, `file_path`, `content`, `commit_message`,
`branch`, and optional string fields `previous_path`, `last_commit_id`,
`commit_id`.  This lists all issues of a raw payload. -/
def createOrUpdateFileIssues (raw : RawArgs) : List ZodIssue :=
  requiredStringIssues raw "project_id" ++
    requiredStringIssues raw "file_path" ++
    requiredStringIssues raw "content" ++
    requiredStringIssues raw "commit_message" ++
    requiredStringIssues raw "branch" ++
    optionalStringIssues raw "previous_path" ++
    optionalStringIssues raw "last_commit_id" ++
    optionalStringIssues raw "commit_id"

/-- Modelled from the spec: `CreateOrUpdateFileSchema.parse` — succeeds with
the typed arguments when no issue is found, otherwise throws a `ZodError`
carrying every issue. -/
def createOrUpdateFileParse (raw : RawArgs) :
    Except (List ZodIssue) CreateOrUpdateFileArgs :=
  match createOrUpdateFileIssues raw with
  | [] =>
    .ok
      { project_id := stringField raw "project_id"
        file_path := stringField raw "file_path"
        content := stringField raw "content"
        commit_message := stringField raw "commit_message"
        branch := stringField raw "branch"
        previous_path := optStringField raw "previous_path"
        last_commit_id := optStringField raw "last_commit_id"
        commit_id := optStringField raw "commit_id" }
  | issue :: rest => .error (issue :: rest)

/-- The `create_or_update_file` case of the dispatcher combined with the
`ZodError` catch branch: parse first, and only on success invoke the handler
(the `createOrUpdateFile` remote call).  The second component counts handler
invocations, so that "the handler is not invoked" is observable. -/
def dispatchCreateOrUpdateFile {α : Type} (raw : RawArgs)
    (handler : CreateOrUpdateFileArgs → α) : DispatchResult α × Nat :=
  match createOrUpdateFileParse raw with
  | .error issues => (.thrown (invalidArgumentsMessage issues), 0)
  | .ok args => (.ok (handler args), 1)

/-! ## `handleGitLabError` (src/index.ts)

```ts
export async function handleGitLabError(response) {
    if (response.status < 200 || response.status >= 300) {
        const errorBody = typeof response.data === 'string' ? response.data : JSON.stringify(response.data);
        if (response.status === 403 && errorBody.includes('User API Key Rate limit exceeded')) {
            throw new Error(`GitLab API Rate Limit Exceeded: ${errorBody}`);
        } else {
            throw new Error(`GitLab API error: ${response.status} ${response.statusText}\n${errorBody}`);
        }
    }
}
```

The response is modelled with `data` already in its string form (the
`typeof` line turns a non-string body into its JSON serialization before any
check); the thrown `Error` is modelled as `some message`, and `none` models
the no-throw path. -/

structure AxiosResponse where
  status : Nat
  statusText : String
  data : String
deriving DecidableEq

def rateLimitSignature : String := "User API Key Rate limit exceeded"

def rateLimitMessage (errorBody : String) : String :=
  "GitLab API Rate Limit Exceeded: " ++ errorBody

def genericErrorMessage (status : Nat) (statusText errorBody : String) : String :=
  "GitLab API error: " ++ toString status ++ " " ++ statusText ++ "\n" ++ errorBody

def handleGitLabError (response : AxiosResponse) : Option String :=
  if response.status < 200 || 300 ≤ response.status then
    if response.status == 403 && strIncludes response.data rateLimitSignature then
      some (rateLimitMessage response.data)
    else
      some (genericErrorMessage response.status response.statusText response.data)
  else none

/-! ## `getFileContents` (src/index.ts)

```ts
export async function getFileContents(projectId, filePath, ref) {
    ...
    try {
        const response = await axios.get(url.toString(), { headers: DEFAULT_HEADERS });
        const parsedData = GitLabContentSchema.parse(response.data);
        if (!Array.isArray(parsedData) && parsedData.content) {
            parsedData.content = Buffer.from(parsedData.content, 'base64').toString('utf8');
            parsedData.encoding = 'utf8';
        }
        return parsedData;
    } catch (error) {
        if (axios.isAxiosError(error)) {
            if (error.response?.status === 404) { throw new Error(`File not found: ${filePath}`); }
            if (error.response) { await handleGitLabError(error.response); }
        }
        throw error;
    }
}
```

The parsed response body is either a single file object or an array (a
directory listing).  Base64 decoding is an injected parameter (`decode`); a
thrown error is modelled as `Except.error` holding the error's message.  The
default-branch resolution performed when `ref` is absent is upstream of this
processing and not needed by any claim. -/

structure GitLabFileContent where
  content : Option String
  encoding : Option String
  commit_id : Option String
  last_commit_id : Option String
deriving DecidableEq

inductive GitLabContent where
  | file (f : GitLabFileContent)
  | listing (entries : List String)
deriving DecidableEq

/-- The raw HTTP outcome feeding `getFileContents`: a parsed body, or an
axios error carrying the failing response. -/
inductive HttpOutcome where
  | ok (data : GitLabContent)
  | err (response : AxiosResponse)
deriving DecidableEq

def getFileContents (decode : String → String) (filePath : String)
    (resp : HttpOutcome) : Except String GitLabContent :=
  match resp with
  | .err r =>
    if r.status == 404 then .error ("File not found: " ++ filePath)
    else
      match handleGitLabError r with
      | some m => .error m
      | none => .error ("Request failed with status code " ++ toString r.status)
  | .ok parsedData =>
    match parsedData with
    | .file f =>
      if truthyStr f.content then
        .ok (.file { f with content := some (decode (f.content.getD "")),
                            encoding := some "utf8" })
      else .ok (.file f)
    | .listing entries => .ok (.listing entries)

/-! ## GitHub `registerGetFileContent` (build/tools/github/index.js)

```js
handler: async ({ owner, repo, path, ref }) => {
    try {
        const { data } = await octokit.repos.getContent({ owner, repo, path, ref });
        if (Array.isArray(data)) { return { error: 'Path points to a directory, not a file' }; }
        const content = Buffer.from(data.content, 'base64').toString('utf-8');
        return { content, encoding: 'utf-8', sha: data.sha, size: data.size,
                 name: data.name, path: data.path, url: data.html_url };
    } catch (error) {
        return { error: `Failed to get file content: ${error.message}` };
    }
}
```
-/

inductive GithubContent where
  | dir (entries : List String)
  | file (content : String) (sha : String) (size : Nat) (name : String)
      (path : String) (html_url : String)
deriving DecidableEq

inductive GithubFileContentResponse where
  | err (message : String)
  | ok (content : String) (encoding : String) (sha : String) (size : Nat)
      (name : String) (path : String) (url : String)
deriving DecidableEq

def githubGetFileContent (decode : String → String)
    (resp : Except String GithubContent) : GithubFileContentResponse :=
  match resp with
  | .error m => .err ("Failed to get file content: " ++ m)
  | .ok (.dir _) => .err "Path points to a directory, not a file"
  | .ok (.file c sha size name p url) => .ok (decode c) "utf-8" sha size name p url

/-! ## `createOrUpdateFile` (src/index.ts)

The function first calls `getFileContents(projectId, filePath, branch)`; on
success it switches the method to `PUT` and, when the result is a file
object, fills `body.commit_id` / `body.last_commit_id` from the read unless
caller-supplied values are present; when the read throws an error whose
message contains `File not found` it keeps `POST` and only the
caller-supplied markers; any other read error is rethrown.  The embedding
returns the request it would issue (method plus body) or the propagated
error; the outcome of the read is the `readResult` argument. -/

structure CreateOrUpdateFileRequest where
  method : String
  branch : String
  content : String
  commit_message : String
  encoding : String
  previous_path : Option String
  commit_id : Option String
  last_commit_id : Option String
deriving DecidableEq

def initialBody (args : CreateOrUpdateFileArgs) : CreateOrUpdateFileRequest :=
  { method := "POST", branch := args.branch, content := args.content,
    commit_message := args.commit_message, encoding := "text",
    previous_path := if truthyStr args.previous_path then args.previous_path else none,
    commit_id := none, last_commit_id := none }

def createOrUpdateFile (args : CreateOrUpdateFileArgs)
    (readResult : Except String GitLabContent) :
    Except String CreateOrUpdateFileRequest :=
  let body := initialBody args
  match readResult with
  | .ok fileData =>
    match fileData with
    | .file f =>
      let body :=
        if !truthyStr args.commit_id && truthyStr f.commit_id then
          { body with commit_id := f.commit_id }
        else if truthyStr args.commit_id then { body with commit_id := args.commit_id }
        else body
      let body :=
        if !truthyStr args.last_commit_id && truthyStr f.last_commit_id then
          { body with last_commit_id := f.last_commit_id }
        else if truthyStr args.last_commit_id then
          { body with last_commit_id := args.last_commit_id }
        else body
      .ok { body with method := "PUT" }
    | .listing _ => .ok { body with method := "PUT" }
  | .error e =>
    if strIncludes e "File not found" then
      let body := if truthyStr args.commit_id then { body with commit_id := args.commit_id }
        else body
      let body := if truthyStr args.last_commit_id then
          { body with last_commit_id := args.last_commit_id }
        else body
      .ok body
    else .error e

/-! ## GitHub `registerPRAction` (build/tools/github/index.js)

```js
handler: async ({ owner, repo, prNumber, action, comment }) => {
    try {
        if (action === 'approve') {
            const { data } = await octokit.pulls.createReview({ ..., event: 'APPROVE', body: comment });
            return { review: data };
        } else if (action === 'close') {
            const { data } = await octokit.pulls.update({ ..., state: 'closed' });
            if (comment) {
                await octokit.issues.createComment({ ..., body: comment });
            }
            return { pullRequest: data };
        }
        return { error: 'Invalid action' };
    } catch (error) {
        return { error: `Failed to perform action: ${error.message}` };
    }
}
```

The three octokit calls are modelled as outcome values; `action` is the
schema-validated enum.  A single `catch` wraps the whole body, so a failure
of the dependent `createComment` call lands in the same generic error return
as a failure of the initial `update` call. -/

inductive PrAction where
  | approve
  | close
deriving DecidableEq

structure PrActionOracles where
  createReview : Except String String
  update : Except String String
  createComment : Except String String

inductive PrActionResponse where
  | err (message : String)
  | review (data : String)
  | pullRequest (data : String)
deriving DecidableEq

def githubPrAction (action : PrAction) (comment : Option String)
    (o : PrActionOracles) : PrActionResponse :=
  match action with
  | .approve =>
    match o.createReview with
    | .ok d => .review d
    | .error m => .err ("Failed to perform action: " ++ m)
  | .close =>
    match o.update with
    | .error m => .err ("Failed to perform action: " ++ m)
    | .ok d =>
      if truthyStr comment then
        match o.createComment with
        | .error m => .err ("Failed to perform action: " ++ m)
        | .ok _ => .pullRequest d
      else .pullRequest d

/-! ## Sandboxed command execution (build/tools/script/index.js)

```js
handler: async ({ script, timeoutSeconds = 30 }) => {
    try {
        if (!script || script.trim() === '') { return { error: 'Script cannot be empty' }; }
        if (timeoutSeconds <= 0 || timeoutSeconds > 300) {
            return { error: 'Timeout must be between 1 and 300 seconds' };
        }
        const dangerousCommands = [
            /\brm\s+(-rf?|--recursive)\s+[\/~]/i,
            /\bformat\s+([a-z]:)?\//i,
            /\bmkfs/i,
            /\bdd\s+if=/i,
            /\bwipe/i,
        ];
        for (const pattern of dangerousCommands) {
            if (pattern.test(script)) {
                return { error: 'Script contains potentially dangerous commands that could cause data loss or system damage',
                         stdout: '', stderr: '', exitCode: -1 };
            }
        }
        const { stdout, stderr } = await execAsync(script, { timeout: timeoutSeconds * 1000, maxBuffer: 1024 * 1024 });
        return { stdout: stdout.toString(), stderr: stderr.toString(), exitCode: 0 };
    } catch (error) {
        if (error.signal === 'SIGTERM') {
            return { error: `Script execution timed out after ${timeoutSeconds} seconds`,
                     stdout: error.stdout?.toString() || '', stderr: error.stderr?.toString() || '', exitCode: -1 };
        }
        return { error: error.message || 'Unknown execution error',
                 stdout: error.stdout?.toString() || '', stderr: error.stderr?.toString() || '',
                 exitCode: error.code || -1 };
    }
}
```

The five deny-list regexes are embedded as executable matchers over the
script's character list.  The regexes carry the `i` flag and no `u` flag, so
case folding is exactly ASCII (`eqCI`); `\b` is the standard `\w` =
`[A-Za-z0-9_]` word boundary; `\s` is the full JS whitespace class (also used
by `trim()`).  `timeoutSeconds` is modelled as an integer (the claims only
involve the integer comparisons `<= 0` and `> 300`).  The
`child_process.exec` promise is modelled by an `ExecOutcome` value: it
resolves only on exit status 0 and otherwise rejects with an error carrying
`message`, `code` (the exit status, absent when killed by a signal),
`signal`, and any captured output.  The second component of the handler's
result counts subprocess invocations. -/

/-- The JS whitespace class (matched by `\s` and trimmed by `trim()`), by
code point: TAB LF VT FF CR SP NBSP OGHAM, U+2000–200A, LS PS NNBSP MMSP
IDSP BOM. -/
def jsWhitespaceChar (c : Char) : Bool :=
  let n := c.toNat
  n == 0x9 || n == 0xa || n == 0xb || n == 0xc || n == 0xd || n == 0x20 ||
    n == 0xa0 || n == 0x1680 || (0x2000 ≤ n && n ≤ 0x200a) || n == 0x2028 ||
    n == 0x2029 || n == 0x202f || n == 0x205f || n == 0x3000 || n == 0xfeff

/-- `\w` of a non-`u` JS regex: `[A-Za-z0-9_]` (codes 97–122, 65–90, 48–57,
95). -/
def isWordChar (c : Char) : Bool :=
  let n := c.toNat
  (97 ≤ n && n ≤ 122) || (65 ≤ n && n ≤ 90) || (48 ≤ n && n ≤ 57) || n == 95

/-- Case-insensitive match of the (lowercase ASCII) pattern character `p`
against an input character: equal, or the input is the uppercase counterpart
(code `p - 32`).  This is exactly the canonicalization of an `i`-flagged,
non-`u` JS regex for ASCII pattern characters. -/
def eqCI (p c : Char) : Bool :=
  p == c || (97 ≤ p.toNat && p.toNat ≤ 122 && c.toNat + 32 == p.toNat)

/-- Strip the literal pattern `ps` (case-insensitively) from the front of the
input, returning the remainder on a match. -/
def stripCI : List Char → List Char → Option (List Char)
  | [], l => some l
  | _ :: _, [] => none
  | p :: ps, c :: cs => if eqCI p c then stripCI ps cs else none

def dropWs : List Char → List Char
  | [] => []
  | c :: rest => if jsWhitespaceChar c then dropWs rest else c :: rest

/-- `\s+` followed by a non-whitespace token: require one whitespace
character and skip the maximal run (equivalent to the regex since every
continuation in the deny-list patterns starts with a non-whitespace
character). -/
def ws1 : List Char → Option (List Char)
  | [] => none
  | c :: rest => if jsWhitespaceChar c then some (dropWs rest) else none

/-- Continuation `\s+[\/~]` of the `rm` pattern, applied to the result of
stripping one flag alternative. -/
def slashTildeAfterWs : Option (List Char) → Bool
  | none => false
  | some r =>
    match ws1 r with
    | none => false
    | some r2 =>
      match r2 with
      | [] => false
      | c :: _ => c == '/' || c == '~'

/-- `rm\s+(-rf?|--recursive)\s+[\/~]` anchored at the start of `l`
(case-insensitively); the alternation `-rf?|--recursive` is expanded to the
three literals `-rf`, `--recursive`, `-r`. -/
def rmPatAt (l : List Char) : Bool :=
  match stripCI ['r', 'm'] l with
  | none => false
  | some l1 =>
    match ws1 l1 with
    | none => false
    | some l2 =>
      slashTildeAfterWs (stripCI ['-', 'r', 'f'] l2) ||
        slashTildeAfterWs
          (stripCI ['-', '-', 'r', 'e', 'c', 'u', 'r', 's', 'i', 'v', 'e'] l2) ||
        slashTildeAfterWs (stripCI ['-', 'r'] l2)

/-- `[a-z]` under the `i` flag: any ASCII letter. -/
def letterCI (c : Char) : Bool :=
  (97 ≤ c.toNat && c.toNat ≤ 122) || (65 ≤ c.toNat && c.toNat ≤ 90)

/-- `format\s+([a-z]:)?\/` anchored at the start of `l`. -/
def formatPatAt (l : List Char) : Bool :=
  match stripCI ['f', 'o', 'r', 'm', 'a', 't'] l with
  | none => false
  | some l1 =>
    match ws1 l1 with
    | none => false
    | some l2 =>
      match l2 with
      | '/' :: _ => true
      | a :: b :: c :: _ => letterCI a && b == ':' && c == '/'
      | _ => false

/-- `mkfs` anchored at the start of `l`. -/
def mkfsPatAt (l : List Char) : Bool :=
  (stripCI ['m', 'k', 'f', 's'] l).isSome

/-- `dd\s+if=` anchored at the start of `l`. -/
def ddPatAt (l : List Char) : Bool :=
  match stripCI ['d', 'd'] l with
  | none => false
  | some l1 =>
    match ws1 l1 with
    | none => false
    | some l2 => (stripCI ['i', 'f', '='] l2).isSome

/-- `wipe` anchored at the start of `l`. -/
def wipePatAt (l : List Char) : Bool :=
  (stripCI ['w', 'i', 'p', 'e'] l).isSome

/-- Scan for a match of `\b` followed by `pat` anywhere in the input.  Every
deny-list pattern starts with a word character, so the `\b` condition at a
position is exactly "the previous character is not a word character"
(`prevWord` carries that state, initially `false` for start-of-string). -/
def scanBoundary (pat : List Char → Bool) : Bool → List Char → Bool
  | _, [] => false
  | prevWord, c :: rest =>
    (!prevWord && pat (c :: rest)) || scanBoundary pat (isWordChar c) rest

/-- The deny-list test: some `dangerousCommands` regex matches the script, in
source order. -/
def isDangerous (script : String) : Bool :=
  scanBoundary rmPatAt false script.data ||
    scanBoundary formatPatAt false script.data ||
    scanBoundary mkfsPatAt false script.data ||
    scanBoundary ddPatAt false script.data ||
    scanBoundary wipePatAt false script.data

/-- The guard `!script || script.trim() === ''`: the script is empty or all
whitespace. -/
def jsTrimEmpty (s : String) : Bool := s.data.all jsWhitespaceChar

/-- The guard `timeoutSeconds <= 0 || timeoutSeconds > 300`. -/
def invalidTimeout (t : Int) : Bool := t ≤ 0 || 300 < t

/-- Outcome of the `execAsync` promise: resolution (exit status 0) with the
captured output, or rejection with the error's `message`, `code` (exit
status, absent on a signal kill), `signal`, and captured output. -/
inductive ExecOutcome where
  | ok (stdout stderr : String)
  | err (message : String) (code : Option Int) (signal : Option String)
      (stdout stderr : Option String)

/-- The handler's returned object; absent JS fields are `none`. -/
structure ScriptResponse where
  error : Option String := none
  stdout : Option String := none
  stderr : Option String := none
  exitCode : Option Int := none
deriving DecidableEq

/-- JS `error.code || -1`: `undefined` and `0` are falsy. -/
def jsOrNeg1 : Option Int → Int
  | some c => if c == 0 then -1 else c
  | none => -1

def dangerousScriptResponse : ScriptResponse :=
  { error := some "Script contains potentially dangerous commands that could cause data loss or system damage",
    stdout := some "", stderr := some "", exitCode := some (-1) }

/-- The `execute_comand_line_script` handler.  The second component counts
how many subprocesses were spawned (0 or 1). -/
def executeCommandLineScript (script : String) (timeoutSeconds : Int)
    (execOutcome : ExecOutcome) : ScriptResponse × Nat :=
  if jsTrimEmpty script then ({ error := some "Script cannot be empty" }, 0)
  else if invalidTimeout timeoutSeconds then
    ({ error := some "Timeout must be between 1 and 300 seconds" }, 0)
  else if isDangerous script then (dangerousScriptResponse, 0)
  else
    match execOutcome with
    | .ok out err =>
      ({ error := none, stdout := some out, stderr := some err, exitCode := some 0 }, 1)
    | .err msg code signal out err =>
      if signal == some "SIGTERM" then
        ({ error := some ("Script execution timed out after " ++ toString timeoutSeconds
              ++ " seconds"),
           stdout := some (out.getD ""), stderr := some (err.getD ""),
           exitCode := some (-1) }, 1)
      else
        ({ error := some (if msg == "" then "Unknown execution error" else msg),
           stdout := some (out.getD ""), stderr := some (err.getD ""),
           exitCode := some (jsOrNeg1 code) }, 1)

/-! ## Lemmas and claim theorems -/

theorem isPrefixL_iff (p : List Char) : ∀ l, isPrefixL p l = true ↔ ∃ t, l = p ++ t := by
  induction p with
  | nil => intro l; simp [isPrefixL]
  | cons a as ih =>
    intro l
    cases l with
    | nil =>
      simp only [isPrefixL, List.cons_append]
      constructor
      · intro h; cases h
      · rintro ⟨t, ht⟩; cases ht
    | cons b bs =>
      simp only [isPrefixL, Bool.and_eq_true, beq_iff_eq, List.cons_append, List.cons.injEq, ih]
      constructor
      · rintro ⟨rfl, t, rfl⟩; exact ⟨t, rfl, rfl⟩
      · rintro ⟨t, rfl, rfl⟩; exact ⟨rfl, t, rfl⟩

theorem endsWithL_iff (suf l : List Char) : endsWithL suf l = true ↔ ∃ pre, l = pre ++ suf := by
  unfold endsWithL
  rw [isPrefixL_iff]
  constructor
  · rintro ⟨t, ht⟩
    refine ⟨t.reverse, ?_⟩
    have h2 := congrArg List.reverse ht
    simpa using h2
  · rintro ⟨pre, rfl⟩
    exact ⟨pre.reverse, by simp⟩

theorem endsWith_slash_append_apiV4 (pre : List Char) :
    endsWithL ['/'] (pre ++ apiV4) = false := by
  unfold endsWithL apiV4
  rw [List.reverse_append]
  simp [isPrefixL]

theorem endsWith_apiV4_append (pre : List Char) : endsWithL apiV4 (pre ++ apiV4) = true :=
  (endsWithL_iff apiV4 (pre ++ apiV4)).2 ⟨pre, rfl⟩

/-- Shape of every `normalizeGitLabApiUrl` output, provided the input does not
end in `/api/v4//`: the output ends in `/api/v4` and not in `/`. -/
theorem normalizeGitLabApiUrl_output_shape (u : List Char)
    (h : endsWithL apiV4SlashSlash u = false) :
    endsWithL apiV4 (normalizeGitLabApiUrl u) = true ∧
      endsWithL ['/'] (normalizeGitLabApiUrl u) = false := by
  unfold normalizeGitLabApiUrl
  by_cases hu : u.isEmpty
  · rw [if_pos hu]
    constructor <;> decide
  · rw [if_neg hu]
    set n := if endsWithL ['/'] u then u.dropLast else u with hn
    by_cases hc : (!endsWithL apiV4 n && !endsWithL apiV4Slash n) = true
    · rw [if_pos hc]
      exact ⟨endsWith_apiV4_append n, endsWith_slash_append_apiV4 n⟩
    · rw [if_neg hc]
      have hor : endsWithL apiV4 n = true ∨ endsWithL apiV4Slash n = true := by
        cases h1 : endsWithL apiV4 n with
        | true => exact Or.inl rfl
        | false =>
          cases h2 : endsWithL apiV4Slash n with
          | true => exact Or.inr rfl
          | false => exact absurd (by rw [h1, h2]; rfl) hc
      rcases hor with h1 | h1
      · refine ⟨h1, ?_⟩
        obtain ⟨pre, hpre⟩ := (endsWithL_iff apiV4 n).1 h1
        rw [hpre]
        exact endsWith_slash_append_apiV4 pre
      · -- `n` ends in `/api/v4/`: impossible given the hypothesis on `u`.
        exfalso
        obtain ⟨pre, hpre⟩ := (endsWithL_iff apiV4Slash n).1 h1
        by_cases hsl : endsWithL ['/'] u = true
        · obtain ⟨q, hq⟩ := (endsWithL_iff ['/'] u).1 hsl
          have hnq : n = q := by
            rw [hn, if_pos hsl, hq]
            exact List.dropLast_concat
          have : endsWithL apiV4SlashSlash u = true := by
            refine (endsWithL_iff apiV4SlashSlash u).2 ⟨pre, ?_⟩
            rw [hq, ← hnq, hpre]
            simp [apiV4Slash, apiV4SlashSlash]
          rw [this] at h; cases h
        · have hnu : n = u := by
            rw [hn, if_neg hsl]
          have : endsWithL ['/'] u = true := by
            refine (endsWithL_iff ['/'] u).2 ⟨pre ++ apiV4, ?_⟩
            rw [← hnu, hpre, List.append_assoc]
            exact congrArg (pre ++ ·) (by decide)
          exact hsl this

/-- A list that ends in `/api/v4` and not in `/` is a fixed point of
`normalizeGitLabApiUrl`. -/
theorem normalizeGitLabApiUrl_fixed (r : List Char)
    (h1 : endsWithL apiV4 r = true) (h2 : endsWithL ['/'] r = false) :
    normalizeGitLabApiUrl r = r := by
  obtain ⟨pre, hpre⟩ := (endsWithL_iff apiV4 r).1 h1
  have hne : r.isEmpty = false := by
    rw [hpre]
    cases pre <;> rfl
  simp [normalizeGitLabApiUrl, hne, h2, h1]

/-- C10: the claim as stated is false: `normalizeGitLabApiUrl` is not
idempotent.  On the input `https://gitlab.com/api/v4//` the first pass strips
one trailing slash, sees the `/api/v4/` suffix and appends nothing, returning
a string ending in `/api/v4/`; the second pass strips that remaining slash,
so the second application differs from the first. -/
theorem normalizeGitLabApiUrl_not_idempotent_cx :
    normalizeGitLabApiUrl (normalizeGitLabApiUrl "https://gitlab.com/api/v4//".data) ≠
      normalizeGitLabApiUrl "https://gitlab.com/api/v4//".data := by
  decide

/-- C10 (amended): `normalizeGitLabApiUrl` is idempotent on every input that
does not end in `/api/v4//`; on such inputs the output ends in `/api/v4` with
no trailing slash and is a fixed point of the function. -/
theorem normalizeGitLabApiUrl_idempotent_unless_doubleSlash (u : List Char)
    (h : endsWithL apiV4SlashSlash u = false) :
    normalizeGitLabApiUrl (normalizeGitLabApiUrl u) = normalizeGitLabApiUrl u := by
  obtain ⟨h1, h2⟩ := normalizeGitLabApiUrl_output_shape u h
  exact normalizeGitLabApiUrl_fixed _ h1 h2

/-- C10 witness: the amended idempotence theorem applied at the concrete
input `https://gitlab.com`. -/
theorem normalizeGitLabApiUrl_idempotent_witness :
    endsWithL apiV4SlashSlash "https://gitlab.com".data = false ∧
      normalizeGitLabApiUrl (normalizeGitLabApiUrl "https://gitlab.com".data) =
        normalizeGitLabApiUrl "https://gitlab.com".data :=
  ⟨by decide, normalizeGitLabApiUrl_idempotent_unless_doubleSlash _ (by decide)⟩

/-- C1: with read-only mode enabled every descriptor in the listing response
has its name in `readOnlyTools`; with read-only mode disabled the full
`allTools` list is returned unfiltered.  (`readOnlyModeOf` records that the
mode is enabled exactly when `GITLAB_READ_ONLY_MODE` is the string
`'true'`.) -/
theorem listTools_readOnly_filtering :
    (listToolsResponse true).all (fun tool => readOnlyTools.contains tool.name) = true ∧
      listToolsResponse false = allTools ∧
      readOnlyModeOf (some "true") = true ∧ readOnlyModeOf none = false :=
  ⟨by decide, rfl, rfl, rfl⟩

/-- C2: the call-tool dispatcher does not consult read-only mode.  Its result
on every request — in particular a direct invocation of a write tool by
name — is identical to its result with read-only mode off, and for every name
the switch recognizes (write tools included) it resolves the case and runs
its body exactly as it would with read-only mode off; only the listing
handler filters by read-only mode. -/
theorem callToolDispatch_ignores_readOnlyMode {α : Type} (mode : Bool)
    (caseBody : String → RawArgs → CaseOutcome α) (req : CallToolRequest) :
    callToolDispatch mode caseBody req = callToolDispatch false caseBody req ∧
      (∀ name raw, callToolCaseNames.contains name = true →
        callToolDispatch mode caseBody { name := name, arguments := some raw } =
          (match caseBody name raw with
           | .ok r => .ok r
           | .zodError issues => .thrown (invalidArgumentsMessage issues)
           | .thrown m => .thrown m)) := by
  constructor
  · rfl
  · intro name raw h
    have hmem : name ∈ callToolCaseNames := by simpa using h
    simp [callToolDispatch, hmem]

/-- C2 witness: `create_repository` is a write tool (it is not in
`readOnlyTools`), yet with read-only mode on the dispatcher resolves it and
runs its case body just as with read-only mode off. -/
theorem callToolDispatch_ignores_readOnlyMode_witness :
    readOnlyTools.contains "create_repository" = false ∧
      callToolDispatch true (fun _ _ => CaseOutcome.ok 0)
          { name := "create_repository", arguments := some [] } =
        DispatchResult.ok 0 :=
  ⟨by decide,
    (callToolDispatch_ignores_readOnlyMode true (fun _ _ => CaseOutcome.ok 0)
        { name := "create_repository", arguments := some [] }).2
      "create_repository" [] (by decide)⟩

/-- C3: whenever the raw arguments fail the tool's parameter schema the
dispatcher yields the invalid-arguments error whose message joins each
failing field's dotted path with its reason, and the handler is invoked zero
times; conversely the handler is only ever invoked on arguments that parsed
successfully. -/
theorem dispatch_validates_before_invoking {α : Type} (raw : RawArgs)
    (handler : CreateOrUpdateFileArgs → α) :
    (∀ issues, createOrUpdateFileParse raw = .error issues →
        dispatchCreateOrUpdateFile raw handler =
          (.thrown (invalidArgumentsMessage issues), 0)) ∧
      ((dispatchCreateOrUpdateFile raw handler).2 ≠ 0 →
        ∃ args, createOrUpdateFileParse raw = .ok args ∧
          (dispatchCreateOrUpdateFile raw handler).1 = .ok (handler args)) := by
  constructor
  · intro issues hiss
    simp [dispatchCreateOrUpdateFile, hiss]
  · intro hcall
    cases hp : createOrUpdateFileParse raw with
    | error issues =>
      exfalso
      apply hcall
      simp [dispatchCreateOrUpdateFile, hp]
    | ok args =>
      exact ⟨args, rfl, by simp [dispatchCreateOrUpdateFile, hp]⟩

/-- C3 witness: on an empty argument payload every required field is missing;
the dispatcher reports all five `Required` violations joined into one message
and the (constant) stub handler is not invoked. -/
theorem dispatch_validates_before_invoking_witness :
    createOrUpdateFileParse [] =
        Except.error [⟨["project_id"], "Required"⟩, ⟨["file_path"], "Required"⟩,
          ⟨["content"], "Required"⟩, ⟨["commit_message"], "Required"⟩,
          ⟨["branch"], "Required"⟩] ∧
      dispatchCreateOrUpdateFile [] (fun _ => 0) =
        (DispatchResult.thrown
          "Invalid arguments: project_id: Required, file_path: Required, content: Required, commit_message: Required, branch: Required", 0) :=
  ⟨by rfl,
    by
      have h := (dispatch_validates_before_invoking [] (fun _ => 0)).1
        [⟨["project_id"], "Required"⟩, ⟨["file_path"], "Required"⟩,
          ⟨["content"], "Required"⟩, ⟨["commit_message"], "Required"⟩,
          ⟨["branch"], "Required"⟩] (by rfl)
      rw [h]
      decide⟩

theorem append_ne_of_getElem11 (p q x y : List Char)
    (hp : p[11]? = some 'R') (hq : q[11]? = some 'e')
    (hpl : 11 < p.length) (hql : 11 < q.length) : p ++ x ≠ q ++ y := by
  intro h
  have h11 := congrArg (fun l => l[11]?) h
  simp only [List.getElem?_append] at h11
  rw [if_pos hpl, if_pos hql, hp, hq] at h11
  exact absurd (Option.some.inj h11) (by decide)

/-- The two message shapes thrown by `handleGitLabError` are distinguishable:
no rate-limit message equals any generic remote-error message (they differ at
character 11, `R` versus `e`). -/
theorem rateLimitMessage_ne_genericErrorMessage (b : String) (s : Nat) (st b' : String) :
    rateLimitMessage b ≠ genericErrorMessage s st b' := by
  intro h
  have hd := congrArg String.data h
  simp only [rateLimitMessage, genericErrorMessage, String.data_append,
    List.append_assoc] at hd
  exact append_ne_of_getElem11 _ _ _ _ (by decide) (by decide) (by decide) (by decide) hd

/-- C8: for every non-success response `handleGitLabError` raises an error;
when the status is 403 and the body contains the rate-limit signature it is
the distinct rate-limit error, in every other non-success case it is the
generic remote error carrying the status code and the raw error body, and
the two error shapes never coincide. -/
theorem handleGitLabError_classification (r : AxiosResponse)
    (hfail : r.status < 200 ∨ 300 ≤ r.status) :
    (handleGitLabError r).isSome = true ∧
      (r.status = 403 ∧ strIncludes r.data rateLimitSignature = true →
        handleGitLabError r = some (rateLimitMessage r.data)) ∧
      (¬(r.status = 403 ∧ strIncludes r.data rateLimitSignature = true) →
        handleGitLabError r = some (genericErrorMessage r.status r.statusText r.data)) ∧
      (∀ b s st b', rateLimitMessage b ≠ genericErrorMessage s st b') := by
  have hcond : (r.status < 200 || 300 ≤ r.status) = true := by
    rcases hfail with h | h
    · simp [h]
    · simp [h]
  refine ⟨?_, ?_, ?_, fun b s st b' => rateLimitMessage_ne_genericErrorMessage b s st b'⟩
  · unfold handleGitLabError
    rw [if_pos hcond]
    cases r.status == 403 && strIncludes r.data rateLimitSignature <;> simp
  · rintro ⟨h403, hsig⟩
    unfold handleGitLabError
    rw [if_pos hcond, if_pos (by simp [h403, hsig])]
  · intro hnot
    unfold handleGitLabError
    rw [if_pos hcond, if_neg ?_]
    intro hb
    rw [Bool.and_eq_true] at hb
    exact hnot ⟨by simpa using hb.1, hb.2⟩

/-- C8 witness: a 403 response whose body carries the rate-limit signature
yields the rate-limit error; a 500 response yields the generic remote error
with its status and body. -/
theorem handleGitLabError_classification_witness :
    handleGitLabError ⟨403, "Forbidden", "User API Key Rate limit exceeded for key"⟩ =
        some (rateLimitMessage "User API Key Rate limit exceeded for key") ∧
      handleGitLabError ⟨500, "Internal Server Error", "boom"⟩ =
        some (genericErrorMessage 500 "Internal Server Error" "boom") :=
  ⟨(handleGitLabError_classification ⟨403, "Forbidden",
        "User API Key Rate limit exceeded for key"⟩ (by decide)).2.1 ⟨rfl, by decide⟩,
    (handleGitLabError_classification ⟨500, "Internal Server Error", "boom"⟩
        (by decide)).2.2.1 (by decide)⟩

/-- C5: the claim as stated is false for the GitLab handler: when the remote
body parses as an array (a directory listing), `getFileContents` returns that
listing unchanged as the success payload — no not-a-file error of any kind is
produced.  Concretely, a request for the directory `src` whose backend
answers with a two-entry listing succeeds with the listing. -/
theorem getFileContents_directory_cx :
    getFileContents id "src" (HttpOutcome.ok (GitLabContent.listing ["a.txt", "b.txt"])) =
      Except.ok (GitLabContent.listing ["a.txt", "b.txt"]) := rfl

/-- C5 (amended): only the GitHub `github_get_file_content` handler produces
the distinct not-a-file error (`Path points to a directory, not a file`) for
a directory path; the GitLab `getFileContents` handler returns the directory
listing unchanged as its success payload. -/
theorem getFileContent_directory_behavior (decode : String → String) :
    (∀ entries, githubGetFileContent decode (.ok (.dir entries)) =
        .err "Path points to a directory, not a file") ∧
      (∀ filePath entries,
        getFileContents decode filePath (.ok (.listing entries)) =
          .ok (.listing entries)) :=
  ⟨fun _ => rfl, fun _ _ => rfl⟩

/-- C4: `createOrUpdateFile` decides create versus update from the prior
read: a successful read of a file yields a `PUT` carrying the commit markers
discovered by the read unless caller-supplied values override them; a read
failing with the not-found condition yields a `POST` whose markers come only
from the caller (none from the remote); and any other read failure
propagates as that same error. -/
theorem createOrUpdateFile_read_decides (args : CreateOrUpdateFileArgs) :
    (∀ f : GitLabFileContent,
        createOrUpdateFile args (.ok (.file f)) =
          .ok { initialBody args with
                method := "PUT"
                commit_id :=
                  if truthyStr args.commit_id then args.commit_id
                  else if truthyStr f.commit_id then f.commit_id else none
                last_commit_id :=
                  if truthyStr args.last_commit_id then args.last_commit_id
                  else if truthyStr f.last_commit_id then f.last_commit_id else none }) ∧
      (∀ msg, strIncludes msg "File not found" = true →
        createOrUpdateFile args (.error msg) =
          .ok { initialBody args with
                method := "POST"
                commit_id := if truthyStr args.commit_id then args.commit_id else none
                last_commit_id :=
                  if truthyStr args.last_commit_id then args.last_commit_id else none }) ∧
      (∀ msg, strIncludes msg "File not found" = false →
        createOrUpdateFile args (.error msg) = .error msg) := by
  refine ⟨?_, ?_, ?_⟩
  · intro f
    cases hac : truthyStr args.commit_id <;>
      cases hfc : truthyStr f.commit_id <;>
        cases hal : truthyStr args.last_commit_id <;>
          cases hfl : truthyStr f.last_commit_id <;>
            simp [createOrUpdateFile, initialBody, hac, hfc, hal, hfl]
  · intro msg hmsg
    cases hac : truthyStr args.commit_id <;>
      cases hal : truthyStr args.last_commit_id <;>
        simp [createOrUpdateFile, initialBody, hmsg, hac, hal]
  · intro msg hmsg
    simp [createOrUpdateFile, hmsg]

/-- C4 witness: the three branches at concrete inputs — a read that found the
file (update with discovered markers), a not-found read (create), and a read
failing with a server error (propagated). -/
theorem createOrUpdateFile_read_decides_witness :
    createOrUpdateFile
        ⟨"42", "README.md", "hello", "update readme", "main", none, none, none⟩
        (.ok (.file ⟨some "hello", some "utf8", some "c1", some "c2"⟩)) =
      .ok { method := "PUT", branch := "main", content := "hello",
            commit_message := "update readme", encoding := "text",
            previous_path := none, commit_id := some "c1", last_commit_id := some "c2" } ∧
    createOrUpdateFile
        ⟨"42", "README.md", "hello", "update readme", "main", none, none, none⟩
        (.error "File not found: README.md") =
      .ok { method := "POST", branch := "main", content := "hello",
            commit_message := "update readme", encoding := "text",
            previous_path := none, commit_id := none, last_commit_id := none } ∧
    createOrUpdateFile
        ⟨"42", "README.md", "hello", "update readme", "main", none, none, none⟩
        (.error "GitLab API error: 500 Internal Server Error\nboom") =
      .error "GitLab API error: 500 Internal Server Error\nboom" :=
  ⟨by
    have h := (createOrUpdateFile_read_decides
      ⟨"42", "README.md", "hello", "update readme", "main", none, none, none⟩).1
      ⟨some "hello", some "utf8", some "c1", some "c2"⟩
    rw [h]; rfl,
   by
    have h := (createOrUpdateFile_read_decides
      ⟨"42", "README.md", "hello", "update readme", "main", none, none, none⟩).2.1
      "File not found: README.md" (by decide)
    rw [h]; rfl,
   (createOrUpdateFile_read_decides
      ⟨"42", "README.md", "hello", "update readme", "main", none, none, none⟩).2.2
      "GitLab API error: 500 Internal Server Error\nboom" (by decide)⟩

/-- C9: the claim as stated is false.  When the close succeeds and the
dependent comment call fails, the handler's response is the very same
`Failed to perform action: …` error it returns when the close itself fails —
the caller cannot tell from the result that the state change took effect, so
the partial-success condition is not surfaced distinctly. -/
theorem githubPrAction_partial_success_cx :
    githubPrAction .close (some "done")
        ⟨.ok "rev", .ok "pr-closed", .error "comment rejected"⟩ =
      PrActionResponse.err "Failed to perform action: comment rejected" ∧
    githubPrAction .close (some "done")
        ⟨.ok "rev", .error "comment rejected", .ok "c"⟩ =
      PrActionResponse.err "Failed to perform action: comment rejected" :=
  ⟨rfl, rfl⟩

/-- C9 (amended): when the state change succeeds and the dependent comment
call fails, the handler reports the generic total-failure error built from
the comment failure's message — identical to its response when the state
change itself fails with that message — rather than any distinct
partial-success result. -/
theorem githubPrAction_partial_failure (rv rv' cc : Except String String)
    (d m : String) (comment : Option String) (h : truthyStr comment = true) :
    githubPrAction .close comment ⟨rv, .ok d, .error m⟩ =
        PrActionResponse.err ("Failed to perform action: " ++ m) ∧
      githubPrAction .close comment ⟨rv, .ok d, .error m⟩ =
        githubPrAction .close comment ⟨rv', .error m, cc⟩ := by
  constructor <;> simp [githubPrAction, h]

/-- C9 witness: the amended theorem at a concrete comment and failure
message. -/
theorem githubPrAction_partial_failure_witness :
    truthyStr (some "lgtm") = true ∧
      (githubPrAction .close (some "lgtm") ⟨.ok "r", .ok "pr", .error "boom"⟩ =
          PrActionResponse.err ("Failed to perform action: " ++ "boom") ∧
        githubPrAction .close (some "lgtm") ⟨.ok "r", .ok "pr", .error "boom"⟩ =
          githubPrAction .close (some "lgtm") ⟨.ok "x", .error "boom", .ok "c"⟩) :=
  ⟨by decide, githubPrAction_partial_failure (.ok "r") (.ok "x") (.ok "c") "pr" "boom"
      (some "lgtm") (by decide)⟩

theorem jsWhitespaceChar_eq_false_of_range (c : Char) (h1 : 65 ≤ c.toNat)
    (h2 : c.toNat ≤ 122) : jsWhitespaceChar c = false := by
  rw [Bool.eq_false_iff]
  intro ht
  unfold jsWhitespaceChar at ht
  simp only [Bool.or_eq_true, beq_iff_eq, Bool.and_eq_true, decide_eq_true_eq] at ht
  omega

theorem not_ws_of_eqCI (p c : Char) (hp1 : 97 ≤ p.toNat) (hp2 : p.toNat ≤ 122)
    (h : eqCI p c = true) : jsWhitespaceChar c = false := by
  unfold eqCI at h
  rw [Bool.or_eq_true] at h
  rcases h with h | h
  · have hc : c = p := (beq_iff_eq.mp h).symm
    rw [hc]
    exact jsWhitespaceChar_eq_false_of_range p (by omega) hp2
  · simp only [Bool.and_eq_true, decide_eq_true_eq, beq_iff_eq] at h
    exact jsWhitespaceChar_eq_false_of_range c (by omega) (by omega)

theorem stripCI_cons (p : Char) (ps l r : List Char)
    (h : stripCI (p :: ps) l = some r) : ∃ c cs, l = c :: cs ∧ eqCI p c = true := by
  cases l with
  | nil => exact absurd h (by simp [stripCI])
  | cons c cs =>
    refine ⟨c, cs, rfl, ?_⟩
    cases he : eqCI p c with
    | true => rfl
    | false =>
      rw [stripCI, if_neg (by simp [he])] at h
      cases h

theorem rmPatAt_head (l : List Char) (h : rmPatAt l = true) :
    ∃ c cs, l = c :: cs ∧ eqCI 'r' c = true := by
  unfold rmPatAt at h
  cases hs : stripCI ['r', 'm'] l with
  | none => rw [hs] at h; cases h
  | some r => exact stripCI_cons _ _ _ _ hs

theorem formatPatAt_head (l : List Char) (h : formatPatAt l = true) :
    ∃ c cs, l = c :: cs ∧ eqCI 'f' c = true := by
  unfold formatPatAt at h
  cases hs : stripCI ['f', 'o', 'r', 'm', 'a', 't'] l with
  | none => rw [hs] at h; cases h
  | some r => exact stripCI_cons _ _ _ _ hs

theorem mkfsPatAt_head (l : List Char) (h : mkfsPatAt l = true) :
    ∃ c cs, l = c :: cs ∧ eqCI 'm' c = true := by
  unfold mkfsPatAt at h
  cases hs : stripCI ['m', 'k', 'f', 's'] l with
  | none => rw [hs] at h; cases h
  | some r => exact stripCI_cons _ _ _ _ hs

theorem ddPatAt_head (l : List Char) (h : ddPatAt l = true) :
    ∃ c cs, l = c :: cs ∧ eqCI 'd' c = true := by
  unfold ddPatAt at h
  cases hs : stripCI ['d', 'd'] l with
  | none => rw [hs] at h; cases h
  | some r => exact stripCI_cons _ _ _ _ hs

theorem wipePatAt_head (l : List Char) (h : wipePatAt l = true) :
    ∃ c cs, l = c :: cs ∧ eqCI 'w' c = true := by
  unfold wipePatAt at h
  cases hs : stripCI ['w', 'i', 'p', 'e'] l with
  | none => rw [hs] at h; cases h
  | some r => exact stripCI_cons _ _ _ _ hs

theorem scanBoundary_exists (pat : List Char → Bool) :
    ∀ (l : List Char) (w : Bool), scanBoundary pat w l = true →
      ∃ pre suf, l = pre ++ suf ∧ pat suf = true := by
  intro l
  induction l with
  | nil => intro w h; cases h
  | cons c rest ih =>
    intro w h
    rw [scanBoundary, Bool.or_eq_true] at h
    rcases h with h | h
    · exact ⟨[], c :: rest, rfl, ((Bool.and_eq_true _ _).mp h).2⟩
    · obtain ⟨pre, suf, heq, hp⟩ := ih (isWordChar c) h
      exact ⟨c :: pre, suf, by rw [heq, List.cons_append], hp⟩

/-- A deny-list scan whose pattern must start with a lowercase-letter match
cannot succeed on an all-whitespace string. -/
theorem scan_false_of_all_ws (s : String) (hall : s.data.all jsWhitespaceChar = true)
    (pat : List Char → Bool) (x : Char) (hx1 : 97 ≤ x.toNat) (hx2 : x.toNat ≤ 122)
    (hhead : ∀ l, pat l = true → ∃ c cs, l = c :: cs ∧ eqCI x c = true) :
    scanBoundary pat false s.data = false := by
  rw [Bool.eq_false_iff]
  intro hscan
  obtain ⟨pre, suf, heq, hp⟩ := scanBoundary_exists pat s.data false hscan
  obtain ⟨c, cs, hsuf, hci⟩ := hhead suf hp
  have hmem : c ∈ s.data := by
    rw [heq, hsuf]
    exact List.mem_append_right _ (List.mem_cons_self _ _)
  have hws := List.all_eq_true.1 hall c hmem
  rw [not_ws_of_eqCI x c hx1 hx2 hci] at hws
  cases hws

/-- A script matching the deny-list is not empty/all-whitespace, so the
dangerous-pattern branch is reachable whenever `isDangerous` holds. -/
theorem isDangerous_not_blank (s : String) (h : isDangerous s = true) :
    jsTrimEmpty s = false := by
  rw [Bool.eq_false_iff]
  intro hall
  have hall' : s.data.all jsWhitespaceChar = true := hall
  unfold isDangerous at h
  rw [scan_false_of_all_ws s hall' rmPatAt 'r' (by decide) (by decide) rmPatAt_head,
    scan_false_of_all_ws s hall' formatPatAt 'f' (by decide) (by decide) formatPatAt_head,
    scan_false_of_all_ws s hall' mkfsPatAt 'm' (by decide) (by decide) mkfsPatAt_head,
    scan_false_of_all_ws s hall' ddPatAt 'd' (by decide) (by decide) ddPatAt_head,
    scan_false_of_all_ws s hall' wipePatAt 'w' (by decide) (by decide) wipePatAt_head] at h
  cases h

/-- C6: a script matching the deny-list never spawns a subprocess — the
invocation count is 0 for every timeout and every possible exec outcome —
and, whenever the (earlier) timeout guard passes, the handler's response is
exactly the dangerous-script error. -/
theorem dangerousScript_never_spawns (script : String) (t : Int) (e : ExecOutcome)
    (h : isDangerous script = true) :
    (executeCommandLineScript script t e).2 = 0 ∧
      (invalidTimeout t = false →
        executeCommandLineScript script t e = (dangerousScriptResponse, 0)) := by
  have hb := isDangerous_not_blank script h
  constructor
  · unfold executeCommandLineScript
    rw [hb]
    cases ht : invalidTimeout t with
    | true => simp
    | false => simp [h]
  · intro ht
    unfold executeCommandLineScript
    rw [hb, ht, h]
    simp

/-- C6 witness: the script `rm -rf /` with the default 30-second timeout is
rejected as dangerous with zero subprocess invocations, whatever the exec
stub would have produced. -/
theorem dangerousScript_never_spawns_witness :
    isDangerous "rm -rf /" = true ∧ invalidTimeout 30 = false ∧
      executeCommandLineScript "rm -rf /" 30 (ExecOutcome.ok "" "") =
        (dangerousScriptResponse, 0) :=
  ⟨by decide, by decide,
    (dangerousScript_never_spawns "rm -rf /" 30 (ExecOutcome.ok "" "")
        (by decide)).2 (by decide)⟩

/-- C7: the claim as stated is false.  A subprocess completing with the
nonzero exit status 2 rejects the `execAsync` promise; the handler's response
does carry the exit code and the captured output, but also an `error` field
holding the failure message — the same error-carrying shape every handler
failure uses — so the nonzero exit is not reported as plain data without an
error envelope. -/
theorem nonzeroExit_error_envelope_cx :
    executeCommandLineScript "ls /nonexistent" 30
        (ExecOutcome.err "Command failed: ls /nonexistent" (some 2) none
          (some "") (some "ls: cannot access /nonexistent")) =
      ({ error := some "Command failed: ls /nonexistent", stdout := some "",
         stderr := some "ls: cannot access /nonexistent", exitCode := some 2 }, 1) ∧
      (executeCommandLineScript "ls /nonexistent" 30
          (ExecOutcome.err "Command failed: ls /nonexistent" (some 2) none
            (some "") (some "ls: cannot access /nonexistent"))).1.error ≠ none := by
  constructor
  · rfl
  · intro hcontra
    cases hcontra

/-- C7 (amended): on completion with exit status 0 the handler returns the
captured stdout, stderr and exit code 0 with no error field; a nonzero exit
status rejects the exec promise, and the handler reports the exit code
(`error.code`, with falsy values mapped to -1) and the captured output as
data but alongside a populated `error` field — the error-envelope shape —
rather than as a pure data result. -/
theorem executeScript_completion_reporting (script : String) (t : Int)
    (hb : jsTrimEmpty script = false) (ht : invalidTimeout t = false)
    (hd : isDangerous script = false) :
    (∀ out err, executeCommandLineScript script t (.ok out err) =
        ({ error := none, stdout := some out, stderr := some err,
           exitCode := some 0 }, 1)) ∧
      (∀ msg code out err,
        executeCommandLineScript script t (.err msg code none out err) =
          ({ error := some (if msg == "" then "Unknown execution error" else msg),
             stdout := some (out.getD ""), stderr := some (err.getD ""),
             exitCode := some (jsOrNeg1 code) }, 1)) := by
  constructor
  · intro out err
    unfold executeCommandLineScript
    rw [hb, ht, hd]
    simp
  · intro msg code out err
    unfold executeCommandLineScript
    rw [hb, ht, hd]
    simp

/-- C7 witness: the amended theorem at a concrete script — a clean exit 0
run, and a rejection with exit code 2. -/
theorem executeScript_completion_reporting_witness :
    executeCommandLineScript "ls" 30 (ExecOutcome.ok "file.txt\n" "") =
        ({ error := none, stdout := some "file.txt\n", stderr := some "",
           exitCode := some 0 }, 1) ∧
      executeCommandLineScript "ls" 30
          (ExecOutcome.err "Command failed: ls" (some 2) none (some "o") (some "e")) =
        ({ error := some "Command failed: ls", stdout := some "o", stderr := some "e",
           exitCode := some 2 }, 1) :=
  ⟨(executeScript_completion_reporting "ls" 30 (by decide) (by decide) (by decide)).1
      "file.txt\n" "",
    by
      have h := (executeScript_completion_reporting "ls" 30 (by decide) (by decide)
        (by decide)).2 "Command failed: ls" (some 2) (some "o") (some "e")
      rw [h]
      rfl⟩
